import Mathlib

/-!
Shallow embedding of the consensus core of the lisk-sdk repository.

The central file embedded here is the `Consensus` class
(src/unnamed/part_001): `onBlockReceive`, `execute`, `_execute`,
`_executeValidated`, `_verify`, `_deleteBlock`, `_deleteLastBlock`,
`_sync`, together with the `ConsensusStateStore`
(src/elements/lisk-chain/src/state_store/consensus_state_store.ts).

External collaborators (state machine, chain persistence, BFT API,
network, synchronizer mechanisms) are modelled as an environment of
pure functions whose success or failure is injected; the observable
behaviour of the consensus coordinator (state changes, emitted events,
network calls, raised errors) is computed as a value.
-/

namespace LiskConsensus

/-- Block header fields used by the consensus coordinator and the
fork-choice rule. Identifiers, addresses and hashes are abstracted to
naturals. -/
structure BlockHeader where
  id : Nat
  height : Nat
  previousBlockID : Nat
  generatorAddress : Nat
  timestamp : Nat
  version : Nat
  maxHeightPrevoted : Nat
  deriving DecidableEq, Repr

/-- A block: header plus an opaque payload (transaction ids). -/
structure Block where
  header : BlockHeader
  payload : List Nat
  deriving DecidableEq, Repr

/-- Constant `BLOCK_VERSION = 2` from the source. -/
def BLOCK_VERSION : Nat := 2

/-- Errors raised by the consensus pipeline. `applyPenalty` corresponds
to `ApplyPenaltyError`; `generic` to any other `Error`. -/
inductive Err where
  | applyPenalty (msg : String)
  | generic (msg : String)
  deriving DecidableEq, Repr

/-- The message carried by an error (`error.message`). -/
def Err.msg : Err → String
  | .applyPenalty m => m
  | .generic m => m

/-- Observable effects: events emitted on the consensus event emitter
and calls made on the network handle. -/
inductive Effect where
  | forkDetected (b : Block)
  | blockDelete (b : Block)
  | blockBroadcast (b : Block)
  | blockNew (b : Block)
  | netSendBlock (b : Block)
  | applyNodeInfo (height : Nat) (lastBlockID : Nat) (maxHeightPrevoted : Nat) (version : Nat)
  | penalizePeer (peerId : String) (points : Nat)
  | syncRunStart (b : Block)
  deriving DecidableEq, Repr

/-- Persistent consensus state: the saved chain (newest block first),
the persisted finalized height, and the coordinator's stop flag. -/
structure CState where
  chain : List Block
  finalizedHeight : Nat
  stop : Bool
  deriving DecidableEq, Repr

/-- Embeds `this._chain.lastBlock`: the tip. The source assumes the chain is
non-empty after init; a default block stands in for the empty case. -/
def tipOf (st : CState) : Block :=
  st.chain.headD ⟨⟨0, 0, 0, 0, 0, 0, 0⟩, []⟩

/-- Fork-choice statuses (`ForkStatus` in fork_choice_rule). -/
inductive ForkStatus where
  | IDENTICAL_BLOCK
  | VALID_BLOCK
  | DOUBLE_FORGING
  | TIE_BREAK
  | DIFFERENT_CHAIN
  | DISCARD
  deriving DecidableEq, Repr

/-- Slot oracle: genesis timestamp and block interval (`Slots`). -/
structure Slots where
  genesisTimestamp : Nat
  interval : Nat
  deriving DecidableEq, Repr

/-- Slot number of a timestamp. -/
def slotOf (s : Slots) (ts : Nat) : Nat :=
  (ts - s.genesisTimestamp) / s.interval

/-- The instant at which the slot containing `ts` ends. -/
def slotEndOf (s : Slots) (ts : Nat) : Nat :=
  s.genesisTimestamp + (slotOf s ts + 1) * s.interval

/-- Modelled from the spec: the fork-choice rule
(`forkChoice` in fork_choice/fork_choice_rule) is not under src/; its
rules are taken from spec §4.1, evaluated in the listed order with the
first matching rule winning. `curSlot` is the slot oracle's current
slot and `receivedAtTip` the time at which the tip was received. -/
def forkChoice (s : Slots) (curSlot receivedAtTip : Nat) (h t : BlockHeader) : ForkStatus :=
  if h.id = t.id then .IDENTICAL_BLOCK
  else if h.height = t.height ∧ h.previousBlockID = t.previousBlockID ∧
      h.generatorAddress = t.generatorAddress then .DOUBLE_FORGING
  else if h.height = t.height ∧ slotOf s h.timestamp = slotOf s t.timestamp ∧
      slotOf s h.timestamp ≤ curSlot ∧ receivedAtTip > slotEndOf s t.timestamp then .TIE_BREAK
  else if h.maxHeightPrevoted > t.maxHeightPrevoted ∨
      (h.maxHeightPrevoted = t.maxHeightPrevoted ∧ h.height > t.height) then .DIFFERENT_CHAIN
  else if h.height = t.height + 1 ∧ h.previousBlockID = t.id then .VALID_BLOCK
  else .DISCARD

/-- Outcome of one `synchronizer.run` call, as observed by
`Consensus._sync`: success, or one of the three translated error
classes, or any other error. -/
inductive SyncOutcome where
  | ok
  | applyPenaltyAndRestart
  | restart
  | abort
  | other (e : Err)
  deriving DecidableEq, Repr

/-- Environment of external collaborators. Each fallible call is a
pure function of the block; `syncOutcomes` is the stream of results of
successive `synchronizer.run` calls. -/
structure Env where
  smVerify : Block → Except Err Unit
  smExecute : Block → Except Err Unit
  chainVerify : Block → Except Err Unit
  maxHeightPrecommitted : Nat
  saveBlock : Block → Except Err Unit
  removeBlock : Block → Except Err Unit
  slots : Slots
  currentSlot : Nat
  receivedAt : Nat
  syncOutcomes : List SyncOutcome
  syncing : Bool

/-- Options of `_executeValidated`. -/
structure ExecOptions where
  skipBroadcast : Bool := false
  removeFromTempTable : Bool := false
  deriving DecidableEq, Repr

/-- Result of a coordinator operation: the state afterwards, the
effects that were observed (in order) before it returned or threw, and
the error it threw, if any. -/
abbrev Outcome := CState × List Effect × Option Err

/-- Embeds `Consensus._executeValidated(block, options)`: run the state
machine verify step; if not `skipBroadcast`, send the block on the
network and emit `BLOCK_BROADCAST`; run the state machine execute
step; compute the new finalized height as the maximum of the current
one and `maxHeightPrecommitted` from the BFT API; save the block with
that finalized height; emit `BLOCK_NEW`. Any failing step throws,
leaving effects already produced in place. -/
def executeValidated (env : Env) (st : CState) (b : Block) (opts : ExecOptions) : Outcome :=
  match env.smVerify b with
  | .error e => (st, [], some e)
  | .ok _ =>
    let bc : List Effect :=
      if opts.skipBroadcast then [] else [.netSendBlock b, .blockBroadcast b]
    match env.smExecute b with
    | .error e => (st, bc, some e)
    | .ok _ =>
      let fh :=
        if env.maxHeightPrecommitted > st.finalizedHeight then env.maxHeightPrecommitted
        else st.finalizedHeight
      match env.saveBlock b with
      | .error e => (st, bc, some e)
      | .ok _ =>
        ({ st with chain := b :: st.chain, finalizedHeight := fh },
          bc ++ [.blockNew b], none)

/-- Embeds `Consensus._verify(block)`: reject a version other than
`BLOCK_VERSION` with an `ApplyPenaltyError`; otherwise run
`chain.verifyBlock` and wrap any failure as `ApplyPenaltyError`. -/
def verifyB (env : Env) (b : Block) : Option Err :=
  if b.header.version ≠ BLOCK_VERSION then
    some (.applyPenalty "Block version must be 2")
  else
    match env.chainVerify b with
    | .error e => some (.applyPenalty e.msg)
    | .ok _ => none

/-- Embeds `Consensus._deleteBlock(block, saveTempBlock)`: refuse to delete at
or below the finalized height; otherwise remove the block from the
chain and emit `BLOCK_DELETE`. -/
def deleteBlock (env : Env) (st : CState) (b : Block) (_saveTempBlock : Bool) : Outcome :=
  if b.header.height ≤ st.finalizedHeight then
    (st, [], some (.generic "Can not delete block below or same as finalized height"))
  else
    match env.removeBlock b with
    | .error e => (st, [], some e)
    | .ok _ => ({ st with chain := st.chain.tail }, [.blockDelete b], none)

/-- Embeds `Consensus._deleteLastBlock(options)`: return silently when the
stop flag is set; otherwise delete the tip under the mutex. -/
def deleteLastBlock (env : Env) (st : CState) (saveTempBlock : Bool) : Outcome :=
  if st.stop then (st, [], none)
  else deleteBlock env st (tipOf st) saveTempBlock

/-- The loop of `Consensus._sync`: each list entry is the outcome of
one `synchronizer.run` call. `ApplyPenaltyAndRestartError` applies a
100-point penalty to the peer then re-runs; `RestartError` re-runs
without penalty; `AbortError` is logged and the call returns; any
other error propagates. -/
def syncLoop (b : Block) (peer : String) : List SyncOutcome → List Effect × Option Err
  | [] => ([], none)
  | o :: rest =>
    match o with
    | .ok => ([.syncRunStart b], none)
    | .applyPenaltyAndRestart =>
      let (t, e) := syncLoop b peer rest
      (.syncRunStart b :: .penalizePeer peer 100 :: t, e)
    | .restart =>
      let (t, e) := syncLoop b peer rest
      (.syncRunStart b :: t, e)
    | .abort => ([.syncRunStart b], none)
    | .other e => ([.syncRunStart b], some e)

/-- Embeds `Consensus._sync(block, peerID)`: return when stopped, else run
the synchronizer with the supervisor's error translation. -/
def sync (env : Env) (st : CState) (b : Block) (peer : String) : List Effect × Option Err :=
  if st.stop then ([], none) else syncLoop b peer env.syncOutcomes

/-- Embeds `Consensus._execute(block, peerID)`: the processing path of
`onBlockReceive`. Returns when the stop flag is set; otherwise, under
the mutex, classifies the block against the tip and dispatches:
DISCARD and DOUBLE_FORGING emit `FORK_DETECTED` and return;
IDENTICAL_BLOCK returns; DIFFERENT_CHAIN emits `FORK_DETECTED` and
syncs; TIE_BREAK emits `FORK_DETECTED`, verifies, deletes the tip,
executes the new block and on failure restores the saved tip with
`skipBroadcast` (the failure is logged, not rethrown); VALID_BLOCK
verifies, executes, then advertises the new tip via `applyNodeInfo`. -/
def executeStep (env : Env) (st : CState) (b : Block) (peer : String) : Outcome :=
  if st.stop then (st, [], none)
  else
    let tip := tipOf st
    match forkChoice env.slots env.currentSlot env.receivedAt b.header tip.header with
    | .DISCARD => (st, [.forkDetected b], none)
    | .IDENTICAL_BLOCK => (st, [], none)
    | .DOUBLE_FORGING => (st, [.forkDetected b], none)
    | .DIFFERENT_CHAIN =>
      let (t, e) := sync env st b peer
      (st, .forkDetected b :: t, e)
    | .TIE_BREAK =>
      match verifyB env b with
      | some e => (st, [.forkDetected b], some e)
      | none =>
        match deleteBlock env st tip false with
        | (st1, t1, some e) => (st1, .forkDetected b :: t1, some e)
        | (st1, t1, none) =>
          match executeValidated env st1 b {} with
          | (st2, t2, none) => (st2, .forkDetected b :: (t1 ++ t2), none)
          | (st2, t2, some _e) =>
            match executeValidated env st2 tip { skipBroadcast := true } with
            | (st3, t3, e3) => (st3, .forkDetected b :: (t1 ++ t2 ++ t3), e3)
    | .VALID_BLOCK =>
      match verifyB env b with
      | some e => (st, [], some e)
      | none =>
        match executeValidated env st b {} with
        | (st1, t1, some e) => (st1, t1, some e)
        | (st1, t1, none) =>
          (st1,
            t1 ++ [.applyNodeInfo b.header.height b.header.id 0 b.header.version], none)

/-- Embeds `Consensus.execute(block)`: the generator-facing entry point. It
runs `_executeValidated` under the mutex, with no stop-flag check and
no verification. -/
def executePublic (env : Env) (st : CState) (b : Block) : Outcome :=
  executeValidated env st b {}

/-- The data received by `onBlockReceive`: not a Buffer, a Buffer that
`codec.decode` rejects, bytes whose `Block.fromBytes` fails, or a
decoded block. -/
inductive RecvData where
  | notBuffer
  | undecodable
  | badBlockBytes
  | blk (b : Block)
  deriving DecidableEq, Repr

/-- Embeds `Consensus.onBlockReceive(data, peerId)`: drop silently while
syncing; penalize 100 for a non-Buffer (returning), and for
undecodable envelope or block bytes (rethrowing); otherwise process
via `_execute`, adding a 100-point penalty when it throws an
`ApplyPenaltyError`, and rethrow any error. -/
def onBlockReceive (env : Env) (st : CState) (d : RecvData) (peer : String) : Outcome :=
  if env.syncing then (st, [], none)
  else
    match d with
    | .notBuffer => (st, [.penalizePeer peer 100], none)
    | .undecodable =>
      (st, [.penalizePeer peer 100], some (.generic "undecodable post block data"))
    | .badBlockBytes =>
      (st, [.penalizePeer peer 100], some (.generic "undecodable block bytes"))
    | .blk b =>
      match executeStep env st b peer with
      | (st', t, none) => (st', t, none)
      | (st', t, some e) =>
        match e with
        | .applyPenalty m =>
          (st', t ++ [.penalizePeer peer 100], some (.applyPenalty m))
        | .generic m => (st', t, some (.generic m))

/-! ### ConsensusStateStore
(src/elements/lisk-chain/src/state_store/consensus_state_store.ts)
Keys and values are abstracted to naturals; `BufferMap`s become
association lists keyed by content and the `Set` of updated keys a
deduplicated list. -/

/-- Constant `CONSENSUS_STATE_FINALIZED_HEIGHT_KEY`: the finalized-height key,
abstracted to a distinguished natural. -/
def FINALIZED_HEIGHT_KEY : Nat := 0

/-- Association-list lookup (`BufferMap.get`). -/
def alGet (m : List (Nat × Nat)) (k : Nat) : Option Nat :=
  (m.find? (fun p => p.1 = k)).map (·.2)

/-- Association-list update (`BufferMap.set`): the overwrite is
modelled by shadowing, since the map is only ever read through
`alGet`, which takes the first match. -/
def alSet (m : List (Nat × Nat)) (k v : Nat) : List (Nat × Nat) :=
  (k, v) :: m

/-- In-memory state of a `ConsensusStateStore`: the working data map,
the cached initial values, and the set of updated keys. -/
structure CSStore where
  data : List (Nat × Nat)
  initialValue : List (Nat × Nat)
  updatedKeys : List Nat
  deriving DecidableEq, Repr

/-- A fresh store (the constructor). -/
def CSStore.empty : CSStore := ⟨[], [], []⟩

/-- Embeds `ConsensusStateStore.get(key)` over a database `db`: return the
cached value if present; otherwise read the database, returning
`undefined` without caching when absent; cache the initial value
unless the key is the finalized-height key; cache and return the
value. -/
def CSStore.get (s : CSStore) (db : Nat → Option Nat) (k : Nat) : CSStore × Option Nat :=
  match alGet s.data k with
  | some v => (s, some v)
  | none =>
    match db k with
    | none => (s, none)
    | some v =>
      let init := if k ≠ FINALIZED_HEIGHT_KEY then alSet s.initialValue k v else s.initialValue
      ({ s with initialValue := init, data := alSet s.data k v }, some v)

/-- Embeds `ConsensusStateStore.set(key, value)`: write the working map and
record the key as updated. -/
def CSStore.set (s : CSStore) (k v : Nat) : CSStore :=
  { s with
    data := alSet s.data k v
    updatedKeys := if k ∈ s.updatedKeys then s.updatedKeys else s.updatedKeys ++ [k] }

/-- The reverse state diff produced by `finalize`: `updated` keeps the
initial value of each changed key, `created` the keys with no initial
value. -/
structure StateDiff where
  updated : List (Nat × Nat)
  created : List Nat
  deriving DecidableEq, Repr

/-- The loop body of `ConsensusStateStore.finalize` for one updated
key: put the key's current value into the database batch; skip the
finalized-height key when building the reverse diff; record other keys
as `updated` (with their cached initial value) when that value exists
and changed, and as `created` when no initial value was cached. -/
def finalizeStep (s : CSStore) (acc : List (Nat × Nat) × StateDiff) (k : Nat) :
    List (Nat × Nat) × StateDiff :=
  let batch := acc.1
  let diff := acc.2
  let updatedValue := (alGet s.data k).getD 0
  let batch' := batch ++ [(k, updatedValue)]
  if k = FINALIZED_HEIGHT_KEY then (batch', diff)
  else
    match alGet s.initialValue k with
    | some init =>
      if init ≠ updatedValue then
        (batch', { diff with updated := diff.updated ++ [(k, init)] })
      else (batch', diff)
    | none => (batch', { diff with created := diff.created ++ [k] })

/-- Embeds `ConsensusStateStore.finalize(batch)`: run the loop body
over every updated key, returning the batch puts and the reverse
diff. -/
def CSStore.finalize (s : CSStore) : List (Nat × Nat) × StateDiff :=
  s.updatedKeys.foldl (finalizeStep s) ([], ⟨[], []⟩)

/-- A get/set operation on the store. -/
inductive SOp where
  | get (k : Nat)
  | set (k v : Nat)
  deriving DecidableEq, Repr

/-- Run a sequence of operations against a store over database `db`. -/
def CSStore.run (s : CSStore) (db : Nat → Option Nat) : List SOp → CSStore
  | [] => s
  | .get k :: rest => ((s.get db k).1).run db rest
  | .set k v :: rest => (s.set k v).run db rest

/-! ### Concrete fixtures used by witnesses and counterexamples -/

/-- A tip header: id 100, height 100, previous 99, generator 7,
timestamp 1000, version 2, maxHeightPrevoted 5. -/
def tipHeader : BlockHeader := ⟨100, 100, 99, 7, 1000, 2, 5⟩

/-- The tip block. -/
def tipB : Block := ⟨tipHeader, []⟩

/-- A state whose chain is just the tip, finalized height 50, not
stopped. -/
def st0 : CState := ⟨[tipB], 50, false⟩

/-- The same state with the stop flag set. -/
def stStopped : CState := ⟨[tipB], 50, true⟩

/-- A block extending the tip (classified VALID_BLOCK). -/
def bValid : Block := ⟨⟨201, 101, 100, 8, 1013, 2, 4⟩, []⟩

/-- A block extending the tip but carrying version 1. -/
def bValidV1 : Block := ⟨⟨202, 101, 100, 8, 1013, 1, 4⟩, []⟩

/-- A competing block at the tip's height in the tip's slot
(classified TIE_BREAK against `tipB` when the tip arrived late). -/
def bTie : Block := ⟨⟨101, 100, 98, 8, 1004, 2, 5⟩, []⟩

/-- A version-1 block that is classified DISCARD against `tipB`. -/
def bDiscardV1 : Block := ⟨⟨300, 50, 49, 9, 500, 1, 4⟩, []⟩

/-- Ten-second slots starting at time 0. -/
def slots0 : Slots := ⟨0, 10⟩

/-- An environment in which every collaborator call succeeds and the
BFT API reports `maxHeightPrecommitted = 60`. -/
def envAllOk : Env where
  smVerify := fun _ => .ok ()
  smExecute := fun _ => .ok ()
  chainVerify := fun _ => .ok ()
  maxHeightPrecommitted := 60
  saveBlock := fun _ => .ok ()
  removeBlock := fun _ => .ok ()
  slots := slots0
  currentSlot := 101
  receivedAt := 1011
  syncOutcomes := []
  syncing := false

/-- Like `envAllOk` but the state machine's execute step fails on
every block. -/
def envExecFail : Env :=
  { envAllOk with smExecute := fun _ => .error (.generic "tx failed") }

/-- Like `envAllOk` but the state machine's execute step fails exactly
on the tie-breaking block `bTie` (id 101). -/
def envTieFail : Env :=
  { envAllOk with
    smExecute := fun b => if b.header.id = 101 then .error (.generic "tx failed") else .ok () }

example : forkChoice slots0 101 1011 bValid.header tipB.header = .VALID_BLOCK := by decide

example : forkChoice slots0 101 1011 bTie.header tipB.header = .TIE_BREAK := by decide

example : forkChoice slots0 101 1011 bDiscardV1.header tipB.header = .DISCARD := by decide

/-! ### C3: finalized height is non-decreasing -/

/-- C3. The finalized height is non-decreasing across every
`_executeValidated` call: whatever the outcome, the resulting state's
finalized height is at least the previous one, and on success it is
exactly the maximum of the previous finalized height and the
`maxHeightPrecommitted` reported by the BFT API. -/
theorem finalizedHeight_nondecreasing (env : Env) (st : CState) (b : Block)
    (opts : ExecOptions) :
    st.finalizedHeight ≤ (executeValidated env st b opts).1.finalizedHeight ∧
    ((executeValidated env st b opts).2.2 = none →
      (executeValidated env st b opts).1.finalizedHeight =
        max st.finalizedHeight env.maxHeightPrecommitted) := by
  unfold executeValidated
  cases env.smVerify b with
  | error e => simp
  | ok _ =>
    cases env.smExecute b with
    | error e => simp
    | ok _ =>
      cases env.saveBlock b with
      | error e => simp
      | ok _ =>
        simp only []
        constructor
        · split <;> omega
        · intro _
          split <;> omega

/-- Witness for C3 at a concrete successful execution. -/
theorem finalizedHeight_nondecreasing_witness :
    st0.finalizedHeight ≤ (executeValidated envAllOk st0 bValid {}).1.finalizedHeight ∧
    ((executeValidated envAllOk st0 bValid {}).2.2 = none →
      (executeValidated envAllOk st0 bValid {}).1.finalizedHeight =
        max st0.finalizedHeight envAllOk.maxHeightPrecommitted) :=
  finalizedHeight_nondecreasing envAllOk st0 bValid {}

/-! ### C4: no deletion at or below the finalized height -/

/-- C4. A block whose height is at most the finalized height cannot be
deleted: `_deleteBlock` (used by the tie-break path) throws and leaves
the state unchanged, and so does `_deleteLastBlock` when the tip is at
or below the finalized height; in particular the block at exactly the
finalized height cannot be deleted. -/
theorem no_delete_at_or_below_finalized (env : Env) (st : CState) (save : Bool)
    (hstop : st.stop = false)
    (htip : (tipOf st).header.height ≤ st.finalizedHeight) :
    deleteLastBlock env st save =
      (st, [], some (.generic "Can not delete block below or same as finalized height")) ∧
    ∀ b : Block, b.header.height ≤ st.finalizedHeight →
      deleteBlock env st b save =
        (st, [], some (.generic "Can not delete block below or same as finalized height")) := by
  constructor
  · simp [deleteLastBlock, deleteBlock, hstop, htip]
  · intro b hb
    simp [deleteBlock, hb]

/-- Witness for C4: with the tip at height 100 and finalized height
100, deletion fails and the state is unchanged. -/
theorem no_delete_at_or_below_finalized_witness :
    deleteLastBlock envAllOk ⟨[tipB], 100, false⟩ false =
      (⟨[tipB], 100, false⟩, [],
        some (.generic "Can not delete block below or same as finalized height")) ∧
    ∀ b : Block, b.header.height ≤ (⟨[tipB], 100, false⟩ : CState).finalizedHeight →
      deleteBlock envAllOk ⟨[tipB], 100, false⟩ b false =
        (⟨[tipB], 100, false⟩, [],
          some (.generic "Can not delete block below or same as finalized height")) :=
  no_delete_at_or_below_finalized envAllOk ⟨[tipB], 100, false⟩ false (by decide) (by decide)

/-! ### C5: supervisor error translation in `_sync` -/

/-- C5. The error translation of `Consensus._sync`: a run that throws
`ApplyPenaltyAndRestartError` is followed by a 100-point peer penalty
and a re-run; a run that throws `RestartError` is re-run with no
penalty; `AbortError` is logged and the call returns normally; any
other error propagates to the caller. -/
theorem sync_error_translation (b : Block) (peer : String) (rest : List SyncOutcome)
    (e : Err) :
    syncLoop b peer (.applyPenaltyAndRestart :: rest) =
      (.syncRunStart b :: .penalizePeer peer 100 :: (syncLoop b peer rest).1,
        (syncLoop b peer rest).2) ∧
    syncLoop b peer (.restart :: rest) =
      (.syncRunStart b :: (syncLoop b peer rest).1, (syncLoop b peer rest).2) ∧
    syncLoop b peer (.abort :: rest) = ([.syncRunStart b], none) ∧
    syncLoop b peer (.other e :: rest) = ([.syncRunStart b], some e) := by
  refine ⟨?_, ?_, rfl, rfl⟩ <;> simp [syncLoop]

/-! ### C1: tie-break failure — restore happens, error is swallowed -/

/-- C1 counterexample. On a concrete TIE_BREAK dispatch where
executing the new block fails after the tip was deleted (the state
machine's execute step rejects `bTie`), the tip is restored (a
`BLOCK_NEW` for `tipB` appears in the trace) but `_execute` completes
with no error: the original error from executing the new block is
logged and swallowed, not propagated, refuting the claim. -/
theorem tie_break_error_not_propagated :
    (executeValidated envTieFail ⟨[], 50, false⟩ bTie {}).2.2 =
      some (.generic "tx failed") ∧
    (executeStep envTieFail st0 bTie "peer1").2.2 = none ∧
    Effect.blockNew tipB ∈ (executeStep envTieFail st0 bTie "peer1").2.1 := by
  decide

/-- C1 amended. On a TIE_BREAK dispatch where verification passes, the
tip is deleted, executing the new block fails and the restoring
execution of the saved tip succeeds, `_execute` restores the tip via
`_executeValidated(tip, {skipBroadcast:true})` and returns without
error: the original error is logged and swallowed, not propagated. -/
theorem tie_break_restores_and_swallows (env : Env) (st : CState) (b : Block)
    (peer : String) (st1 st2 st3 : CState) (t1 t2 t3 : List Effect) (e : Err)
    (hstop : st.stop = false)
    (hfc : forkChoice env.slots env.currentSlot env.receivedAt b.header
      (tipOf st).header = .TIE_BREAK)
    (hv : verifyB env b = none)
    (hdel : deleteBlock env st (tipOf st) false = (st1, t1, none))
    (hex : executeValidated env st1 b {} = (st2, t2, some e))
    (hres : executeValidated env st2 (tipOf st) { skipBroadcast := true } =
      (st3, t3, none)) :
    executeStep env st b peer = (st3, .forkDetected b :: (t1 ++ t2 ++ t3), none) := by
  simp only [executeStep, hstop, hfc, hv, hdel, hex, hres, Bool.false_eq_true, if_false]

/-- Witness for the amended C1 at the concrete tie-break fixture. -/
theorem tie_break_restores_and_swallows_witness :
    executeStep envTieFail st0 bTie "peer1" =
      ({ chain := [tipB], finalizedHeight := 60, stop := false },
        Effect.forkDetected bTie ::
          ([Effect.blockDelete tipB] ++
            [Effect.netSendBlock bTie, Effect.blockBroadcast bTie] ++
            [Effect.blockNew tipB]), none) :=
  tie_break_restores_and_swallows envTieFail st0 bTie "peer1"
    ⟨[], 50, false⟩ ⟨[], 50, false⟩
    ⟨[tipB], 60, false⟩ [.blockDelete tipB]
    [.netSendBlock bTie, .blockBroadcast bTie] [.blockNew tipB]
    (.generic "tx failed")
    (by decide) (by decide) (by decide) (by decide) (by decide) (by decide)

/-! ### C2: failure semantics of `_executeValidated` -/

/-- C2 counterexample. At a concrete input where the state machine's
execute step (step 2) fails, `_executeValidated` raises the error and
the block is not persisted, yet the network send and the
`BLOCK_BROADCAST` event have already occurred: the source broadcasts
after the verify step and before execution and persistence, refuting
the claim that the broadcast happens only after the atomic persist
succeeds. -/
theorem broadcast_precedes_execution :
    (executeValidated envExecFail st0 bValid {}).2.2 = some (.generic "tx failed") ∧
    Effect.blockBroadcast bValid ∈ (executeValidated envExecFail st0 bValid {}).2.1 ∧
    (executeValidated envExecFail st0 bValid {}).1 = st0 := by
  decide

/-- C2 amended. If any step of `_executeValidated` fails, the block is
not persisted (the state is unchanged) and no `BLOCK_NEW` event is
emitted; if the failing step is the state machine verify step (step
1), no effect at all is observed. The broadcast and `BLOCK_BROADCAST`
of step 5, however, are produced after the verify step and before
execution and persistence, so a failure of a later step does not
retract them. -/
theorem executeValidated_failure_no_persist (env : Env) (st : CState) (b : Block)
    (opts : ExecOptions) (st' : CState) (t : List Effect) (e : Err)
    (h : executeValidated env st b opts = (st', t, some e)) :
    st' = st ∧ Effect.blockNew b ∉ t ∧
      (∀ e0 : Err, env.smVerify b = .error e0 → t = []) := by
  cases hv : env.smVerify b with
  | error e0 =>
    simp only [executeValidated, hv, Prod.mk.injEq] at h
    obtain ⟨h1, h2, _⟩ := h
    exact ⟨h1.symm, by simp [← h2], fun _ _ => h2.symm⟩
  | ok _ =>
    cases he : env.smExecute b with
    | error e0 =>
      simp only [executeValidated, hv, he, Prod.mk.injEq] at h
      obtain ⟨h1, h2, _⟩ := h
      refine ⟨h1.symm, ?_, fun e1 hh => by simp [hv] at hh⟩
      rw [← h2]
      split <;> simp
    | ok _ =>
      cases hs : env.saveBlock b with
      | error e0 =>
        simp only [executeValidated, hv, he, hs, Prod.mk.injEq] at h
        obtain ⟨h1, h2, _⟩ := h
        refine ⟨h1.symm, ?_, fun e1 hh => by simp [hv] at hh⟩
        rw [← h2]
        split <;> simp
      | ok _ =>
        simp [executeValidated, hv, he, hs] at h

/-- Witness for the amended C2 at the concrete failing execution. -/
theorem executeValidated_failure_no_persist_witness :
    st0 = st0 ∧
      Effect.blockNew bValid ∉
        [Effect.netSendBlock bValid, Effect.blockBroadcast bValid] ∧
      (∀ e0 : Err, envExecFail.smVerify bValid = .error e0 →
        [Effect.netSendBlock bValid, Effect.blockBroadcast bValid] = ([] : List Effect)) :=
  executeValidated_failure_no_persist envExecFail st0 bValid {} st0
    [Effect.netSendBlock bValid, Effect.blockBroadcast bValid]
    (.generic "tx failed") (by decide)

/-! ### C6: stop-flag checks on the mutating entry points -/

/-- C6 counterexample. With the stop flag set, the public generator
entry point `execute` still proceeds: it performs no stop-flag check,
runs `_executeValidated`, modifies the chain and produces effects,
refuting the claim that every public mutating entry point checks the
stop flag first. -/
theorem execute_ignores_stop_flag :
    stStopped.stop = true ∧
    (executePublic envAllOk stStopped bValid).1 ≠ stStopped ∧
    (executePublic envAllOk stStopped bValid).2.1 ≠ [] := by
  decide

/-- C6 amended. After `stop()` has set the stop flag, `_execute` (the
processing path of `onBlockReceive`) and `_deleteLastBlock` return
without modifying the chain or producing any effect; the public
generator entry point `execute` performs no stop-flag check and
proceeds to execute the block. -/
theorem stop_flag_guards_receive_and_delete (env : Env) (st : CState) (b : Block)
    (peer : String) (save : Bool) (h : st.stop = true) :
    executeStep env st b peer = (st, [], none) ∧
    deleteLastBlock env st save = (st, [], none) ∧
    executePublic env st b = executeValidated env st b {} := by
  exact ⟨by simp [executeStep, h], by simp [deleteLastBlock, h], rfl⟩

/-- Witness for the amended C6 at the stopped fixture state. -/
theorem stop_flag_guards_receive_and_delete_witness :
    executeStep envAllOk stStopped bValid "peer1" = (stStopped, [], none) ∧
    deleteLastBlock envAllOk stStopped false = (stStopped, [], none) ∧
    executePublic envAllOk stStopped bValid =
      executeValidated envAllOk stStopped bValid {} :=
  stop_flag_guards_receive_and_delete envAllOk stStopped bValid "peer1" false (by decide)

/-! ### C7: `applyNodeInfo` after successful execution -/

/-- Discriminator picking out the `applyNodeInfo` effect. -/
def Effect.isNodeInfo : Effect → Bool
  | .applyNodeInfo _ _ _ _ => true
  | _ => false

/-- C7 counterexample. A successful `_executeValidated` through the
generator entry point `execute` produces no `applyNodeInfo` call at
all: the node-info advertisement happens only on the VALID_BLOCK
branch of `_execute`, refuting the claim that it follows every
successful `executeValidated` (generator execute path shown here). -/
theorem execute_no_applyNodeInfo :
    (executePublic envAllOk st0 bValid).2.2 = none ∧
    ((executePublic envAllOk st0 bValid).2.1.all fun e => !e.isNodeInfo) = true := by
  decide

/-- C7 amended. The outgoing `applyNodeInfo` is called exactly on the
VALID_BLOCK receive path, after verification and a successful
`_executeValidated`; the generator `execute`, tie-break and sync paths
do not call it. -/
theorem valid_path_calls_applyNodeInfo (env : Env) (st : CState) (b : Block)
    (peer : String) (st1 : CState) (t1 : List Effect)
    (hstop : st.stop = false)
    (hfc : forkChoice env.slots env.currentSlot env.receivedAt b.header
      (tipOf st).header = .VALID_BLOCK)
    (hv : verifyB env b = none)
    (hex : executeValidated env st b {} = (st1, t1, none)) :
    executeStep env st b peer =
      (st1, t1 ++ [.applyNodeInfo b.header.height b.header.id 0 b.header.version],
        none) := by
  simp only [executeStep, hstop, hfc, hv, hex, Bool.false_eq_true, if_false]

/-- Witness for the amended C7 at the concrete valid-block fixture. -/
theorem valid_path_calls_applyNodeInfo_witness :
    executeStep envAllOk st0 bValid "peer1" =
      ({ chain := [bValid, tipB], finalizedHeight := 60, stop := false },
        [Effect.netSendBlock bValid, Effect.blockBroadcast bValid,
          Effect.blockNew bValid] ++
          [Effect.applyNodeInfo bValid.header.height bValid.header.id 0
            bValid.header.version], none) :=
  valid_path_calls_applyNodeInfo envAllOk st0 bValid "peer1"
    ⟨[bValid, tipB], 60, false⟩
    [.netSendBlock bValid, .blockBroadcast bValid, .blockNew bValid]
    (by decide) (by decide) (by decide) (by decide)

/-! ### C8: wrong block version and the 100-point penalty -/

/-- C8 counterexample. A received block whose version is 1 but whose
fork-choice classification is DISCARD is dropped with a
`FORK_DETECTED` event, no error and no peer penalty: the version check
lives in `_verify`, which only the VALID_BLOCK and TIE_BREAK branches
reach, refuting the claim that every received wrong-version block
yields an ApplyPenalty and a 100-point penalty. -/
theorem wrong_version_discard_no_penalty :
    bDiscardV1.header.version ≠ BLOCK_VERSION ∧
    onBlockReceive envAllOk st0 (.blk bDiscardV1) "peer1" =
      (st0, [.forkDetected bDiscardV1], none) := by
  decide

/-- C8 amended. A received block whose header version differs from
`BLOCK_VERSION` and whose fork-choice classification is VALID_BLOCK or
TIE_BREAK fails `_verify` with an `ApplyPenaltyError`, and
`onBlockReceive` penalizes the sending peer by 100 points and
rethrows; wrong-version blocks dispatched to the other branches are
not verified and draw no penalty. -/
theorem wrong_version_verified_path_penalty (env : Env) (st : CState) (b : Block)
    (peer : String)
    (hsync : env.syncing = false) (hstop : st.stop = false)
    (hver : b.header.version ≠ BLOCK_VERSION) :
    (forkChoice env.slots env.currentSlot env.receivedAt b.header
        (tipOf st).header = .VALID_BLOCK →
      onBlockReceive env st (.blk b) peer =
        (st, [.penalizePeer peer 100],
          some (.applyPenalty "Block version must be 2"))) ∧
    (forkChoice env.slots env.currentSlot env.receivedAt b.header
        (tipOf st).header = .TIE_BREAK →
      onBlockReceive env st (.blk b) peer =
        (st, [.forkDetected b, .penalizePeer peer 100],
          some (.applyPenalty "Block version must be 2"))) := by
  have hvb : verifyB env b = some (.applyPenalty "Block version must be 2") := by
    simp [verifyB, hver]
  constructor
  · intro hfc
    simp [onBlockReceive, executeStep, hsync, hstop, hfc, hvb]
  · intro hfc
    simp [onBlockReceive, executeStep, hsync, hstop, hfc, hvb]

/-- Witness for the amended C8 at a concrete version-1 block that
extends the tip. -/
theorem wrong_version_verified_path_penalty_witness :
    (forkChoice envAllOk.slots envAllOk.currentSlot envAllOk.receivedAt
        bValidV1.header (tipOf st0).header = .VALID_BLOCK →
      onBlockReceive envAllOk st0 (.blk bValidV1) "peer1" =
        (st0, [.penalizePeer "peer1" 100],
          some (.applyPenalty "Block version must be 2"))) ∧
    (forkChoice envAllOk.slots envAllOk.currentSlot envAllOk.receivedAt
        bValidV1.header (tipOf st0).header = .TIE_BREAK →
      onBlockReceive envAllOk st0 (.blk bValidV1) "peer1" =
        (st0, [.forkDetected bValidV1, .penalizePeer "peer1" 100],
          some (.applyPenalty "Block version must be 2"))) :=
  wrong_version_verified_path_penalty envAllOk st0 bValidV1 "peer1"
    (by decide) (by decide) (by decide)

/-! ### C9: receiving the tip again is a no-op -/

/-- C9. Receiving a block whose id equals the tip's id a second time
through `onBlockReceive` is a no-op: the fork-choice rule classifies
it IDENTICAL_BLOCK and `_execute` returns with the state unchanged, no
event emitted and no peer penalty, so applying the same block twice
leaves the state equal to applying it once. -/
theorem identical_block_noop (env : Env) (st : CState) (b : Block) (peer : String)
    (hsync : env.syncing = false) (hstop : st.stop = false)
    (hid : b.header.id = (tipOf st).header.id) :
    onBlockReceive env st (.blk b) peer = (st, [], none) := by
  have hfc : forkChoice env.slots env.currentSlot env.receivedAt b.header
      (tipOf st).header = .IDENTICAL_BLOCK := by
    simp [forkChoice, hid]
  simp [onBlockReceive, executeStep, hsync, hstop, hfc]

/-- Witness for C9: the tip itself received again on the fixture
state. -/
theorem identical_block_noop_witness :
    onBlockReceive envAllOk st0 (.blk tipB) "peer1" = (st0, [], none) :=
  identical_block_noop envAllOk st0 tipB "peer1" (by decide) (by decide) (by decide)

/-! ### C10: the finalized-height key and the reverse diff -/

/-- Lookup after an update: the updated key reads back the new value,
other keys are unaffected. -/
theorem alGet_alSet (m : List (Nat × Nat)) (k v j : Nat) :
    alGet (alSet m k v) j = if j = k then some v else alGet m j := by
  by_cases h : j = k
  · subst h
    simp [alGet, alSet, List.find?_cons]
  · simp only [alGet, alSet, List.find?_cons]
    have : (decide ((k, v).1 = j)) = false := by
      simp
      exact fun hh => h hh.symm
    rw [this]
    simp [alGet, h]

/-- Across any run of get/set operations, the initial value of the
finalized-height key is never cached: `get` skips the cache write for
that key and `set` never touches the cache. -/
theorem run_no_finalized_initial (db : Nat → Option Nat) (ops : List SOp)
    (s : CSStore) (h : alGet s.initialValue FINALIZED_HEIGHT_KEY = none) :
    alGet ((s.run db ops)).initialValue FINALIZED_HEIGHT_KEY = none := by
  induction ops generalizing s with
  | nil => exact h
  | cons op rest ih =>
    cases op with
    | set k v => exact ih _ h
    | get k =>
      apply ih
      simp only [CSStore.get]
      cases hd : alGet s.data k with
      | some v => exact h
      | none =>
        cases hdb : db k with
        | none => exact h
        | some v =>
          simp only []
          by_cases hk : k = FINALIZED_HEIGHT_KEY
          · simp [hk, h]
          · have hg : (if k ≠ FINALIZED_HEIGHT_KEY then alSet s.initialValue k v
                else s.initialValue) = alSet s.initialValue k v := by
              simp [hk]
            rw [hg, alGet_alSet, if_neg (fun hh => hk hh.symm)]
            exact h

/-- The fold of `finalizeStep` appends exactly one batch put per key
and never records the finalized-height key in the reverse diff. -/
theorem finalize_fold_props (s : CSStore) (keys : List Nat)
    (batch : List (Nat × Nat)) (diff : StateDiff) :
    ((keys.foldl (finalizeStep s) (batch, diff)).1.map Prod.fst =
      batch.map Prod.fst ++ keys) ∧
    ((keys.foldl (finalizeStep s) (batch, diff)).2.updated.all
        fun p => p.1 != FINALIZED_HEIGHT_KEY) =
      (diff.updated.all fun p => p.1 != FINALIZED_HEIGHT_KEY) ∧
    ((keys.foldl (finalizeStep s) (batch, diff)).2.created.all
        fun k => k != FINALIZED_HEIGHT_KEY) =
      (diff.created.all fun k => k != FINALIZED_HEIGHT_KEY) := by
  induction keys generalizing batch diff with
  | nil => simp
  | cons k rest ih =>
    simp only [List.foldl_cons]
    by_cases hk : k = FINALIZED_HEIGHT_KEY
    · have hstep : finalizeStep s (batch, diff) k =
          (batch ++ [(k, (alGet s.data k).getD 0)], diff) := by
        simp [finalizeStep, hk]
      rw [hstep]
      obtain ⟨i1, i2, i3⟩ := ih (batch ++ [(k, (alGet s.data k).getD 0)]) diff
      exact ⟨by rw [i1]; simp, i2, i3⟩
    · cases hi : alGet s.initialValue k with
      | none =>
        have hstep : finalizeStep s (batch, diff) k =
            (batch ++ [(k, (alGet s.data k).getD 0)],
              { diff with created := diff.created ++ [k] }) := by
          simp [finalizeStep, hk, hi]
        rw [hstep]
        obtain ⟨i1, i2, i3⟩ := ih (batch ++ [(k, (alGet s.data k).getD 0)])
          { diff with created := diff.created ++ [k] }
        refine ⟨by rw [i1]; simp, by rw [i2], by rw [i3]; simp [hk]⟩
      | some init =>
        by_cases hne : init = (alGet s.data k).getD 0
        · have hstep : finalizeStep s (batch, diff) k =
              (batch ++ [(k, (alGet s.data k).getD 0)], diff) := by
            simp [finalizeStep, hk, hi, hne]
          rw [hstep]
          obtain ⟨i1, i2, i3⟩ := ih (batch ++ [(k, (alGet s.data k).getD 0)]) diff
          exact ⟨by rw [i1]; simp, i2, i3⟩
        · have hstep : finalizeStep s (batch, diff) k =
              (batch ++ [(k, (alGet s.data k).getD 0)],
                { diff with updated := diff.updated ++ [(k, init)] }) := by
            simp [finalizeStep, hk, hi, hne]
          rw [hstep]
          obtain ⟨i1, i2, i3⟩ := ih (batch ++ [(k, (alGet s.data k).getD 0)])
            { diff with updated := diff.updated ++ [(k, init)] }
          refine ⟨by rw [i1]; simp, by rw [i2]; simp [hk], by rw [i3]⟩

/-- C10. For every sequence of get/set operations on the
`ConsensusStateStore`, the finalized-height key is never part of the
reverse state diff returned by `finalize` — neither in `updated` nor
in `created` — and its initial value is never cached on read, even
though every updated key (the finalized-height key included) has its
new value written to the database batch. -/
theorem finalized_key_never_in_diff (db : Nat → Option Nat) (ops : List SOp) :
    alGet ((CSStore.empty.run db ops)).initialValue FINALIZED_HEIGHT_KEY = none ∧
    (((CSStore.empty.run db ops)).finalize.2.updated.all
      fun p => p.1 != FINALIZED_HEIGHT_KEY) = true ∧
    (((CSStore.empty.run db ops)).finalize.2.created.all
      fun k => k != FINALIZED_HEIGHT_KEY) = true ∧
    ((CSStore.empty.run db ops)).finalize.1.map Prod.fst =
      ((CSStore.empty.run db ops)).updatedKeys := by
  obtain ⟨f1, f2, f3⟩ := finalize_fold_props (CSStore.empty.run db ops)
    ((CSStore.empty.run db ops)).updatedKeys [] ⟨[], []⟩
  refine ⟨run_no_finalized_initial db ops CSStore.empty rfl, ?_, ?_, ?_⟩
  · rw [CSStore.finalize, f2]; rfl
  · rw [CSStore.finalize, f3]; rfl
  · rw [CSStore.finalize, f1]; rfl

end LiskConsensus
